import Mathlib

/-!
Verification development for the neuron-astrocyte associative-memory
network notebook (repository `kozleo/naam`).

The notebook's simulation cell is embedded shallowly:

* Tensors become functions out of `Fin n`; all arithmetic is exact
  (a linear ordered field `α`, instantiated at `ℚ` for concrete
  evaluation and at `ℝ` for the claims that need analytic facts
  about `tanh`).
* The nonlinearities `torch.tanh` and `torch.atanh` are passed as
  explicit function parameters `th` and `ath`; for the claims whose
  truth depends on the actual hyperbolic tangent they are
  instantiated with `Real.tanh`.
* The random draws consumed by `torch.randint` and `torch.rand` are
  passed explicitly (`r` for the integer draws of the memory bank,
  `u` for the uniform draws of the corruption vector), which makes
  every pipeline a pure function of its configuration and its draws.
* The in-place updates `x += ...`, `S += ...`, `P += ...` of the
  Euler loop are embedded as sequential updates of an explicit state
  record, preserving the statement order of the source.
-/

namespace Naam

/-- Embedding of `generate_corruption_vector(length, corruption, device)`:
the uniform draws produced by `torch.rand(length)` are passed explicitly
as `u`, and each entry is set by the source line
`torch.where(random_vector <= (1 - corruption), 1, -1)`. -/
def generate_corruption_vector {n : ℕ} {α : Type} [LinearOrderedField α]
    (corruption : α) (u : Fin n → α) : Fin n → α :=
  fun i => if u i ≤ 1 - corruption then (1 : α) else -1

/-- Embedding of the memory-bank line
`etas = 2 * torch.randint(2, (N, K), device=device).float() - 1`:
the raw integer draws of `torch.randint(2, (N, K))` are passed
explicitly as `r`. -/
def generate_memory_bank {n K : ℕ} {α : Type} [LinearOrderedField α]
    (r : Fin n → Fin K → ℕ) : Fin n → Fin K → α :=
  fun i j => 2 * (r i j : α) - 1

/-- Embedding of the contraction
`torch.einsum('im,jm,km,lm,kl->ij', etas, etas, etas, etas, psi)`
used both by the initial-condition solver and inside the Euler loop:
`Contract[i,j] = Σ_k Σ_l psi[k,l] · Σ_m etas[i,m]·etas[j,m]·etas[k,m]·etas[l,m]`. -/
def contractNaive {n K : ℕ} {α : Type} [LinearOrderedField α]
    (etas : Fin n → Fin K → α) (psi : Fin n → Fin n → α) : Fin n → Fin n → α :=
  fun i j => ∑ k, ∑ l, psi k l * ∑ m, etas i m * etas j m * etas k m * etas l m

/-- Modelled from the spec's factorized form of the contraction (§4.3 of
the spec): for each memory index `m` compute the scalar
`v_m = Σ_k Σ_l etas[k,m]·etas[l,m]·psi[k,l]` (that is, `h_m^T psi h_m`
for `h_m` the m-th column of `etas`), then
`Contract[i,j] = Σ_m etas[i,m]·etas[j,m]·v_m`.  This definition follows
the spec's words; the code's own contraction is `contractNaive`. -/
def contractFactored {n K : ℕ} {α : Type} [LinearOrderedField α]
    (etas : Fin n → Fin K → α) (psi : Fin n → Fin n → α) : Fin n → Fin n → α :=
  fun i j => ∑ m, etas i m * etas j m * (∑ k, ∑ l, etas k m * etas l m * psi k l)

/-- Embedding of `psi_0 = -torch.outer(torch.tanh(beta * x0), torch.tanh(beta * x0))`,
with the tanh nonlinearity passed as the parameter `th`. -/
def psi_0 {n : ℕ} {α : Type} [LinearOrderedField α]
    (th : α → α) (β : α) (x0 : Fin n → α) : Fin n → Fin n → α :=
  fun i j => -(th (β * x0 i) * th (β * x0 j))

/-- Embedding of `P0 = (1 / beta) * torch.atanh(psi_0)`, with the atanh
nonlinearity passed as the parameter `ath`. -/
def P0 {n : ℕ} {α : Type} [LinearOrderedField α]
    (ath th : α → α) (β : α) (x0 : Fin n → α) : Fin n → Fin n → α :=
  fun i j => (1 / β) * ath (psi_0 th β x0 i j)

/-- Embedding of
`S0 = (1 / beta) * torch.atanh(-(1 / N ** 3) * torch.einsum('im,jm,km,lm,kl->ij', etas, etas, etas, etas, psi_0))`. -/
def S0 {n K : ℕ} {α : Type} [LinearOrderedField α]
    (ath th : α → α) (β : α) (etas : Fin n → Fin K → α) (x0 : Fin n → α) :
    Fin n → Fin n → α :=
  fun i j => (1 / β) * ath (-(1 / (n : α) ^ 3) * contractNaive etas (psi_0 th β x0) i j)

/-- The dynamic state triple `(x, S, P)` evolved by the Euler loop. -/
structure SimState (n : ℕ) (α : Type) where
  x : Fin n → α
  S : Fin n → Fin n → α
  P : Fin n → Fin n → α

/-- Embedding of one iteration of the Euler loop, preserving the
statement order of the source.  `h`, `g`, `psi` are the loop-local
activations computed from the store at the top of the iteration; the
three in-place updates
`x += dt * (-x + S @ h)`,
`S += dt * (-S + torch.outer(h, h) + psi)`,
`P += dt * (-P + (1 / N ** 3) * torch.einsum(...) + g)`
are threaded through intermediate stores `σ1`, `σ2`, so each right-hand
side reads the store exactly as the corresponding source line does at
that point of the iteration. -/
def eulerStep {n K : ℕ} {α : Type} [LinearOrderedField α]
    (th : α → α) (β dt : α) (etas : Fin n → Fin K → α) (σ : SimState n α) :
    SimState n α :=
  let h : Fin n → α := fun i => th (β * σ.x i)
  let g : Fin n → Fin n → α := fun i j => th (β * σ.S i j)
  let psi : Fin n → Fin n → α := fun i j => th (β * σ.P i j)
  let σ1 := { σ with x := fun i => σ.x i + dt * (-σ.x i + ∑ j, σ.S i j * h j) }
  let σ2 := { σ1 with S := fun i j => σ1.S i j + dt * (-σ1.S i j + h i * h j + psi i j) }
  { σ2 with
    P := fun i j =>
      σ2.P i j + dt * (-σ2.P i j + (1 / (n : α) ^ 3) * contractNaive etas psi i j + g i j) }

/-- Modelled from the spec's per-step update (§4.3): all three derivative
terms are computed from the same pre-update snapshot `(σ.x, σ.S, σ.P)`
and the activations `h`, `g`, `ψ` derived from that snapshot.  This
definition follows the claim's words; the code's own sequential loop
body is `eulerStep`. -/
def snapshotStep {n K : ℕ} {α : Type} [LinearOrderedField α]
    (th : α → α) (β dt : α) (etas : Fin n → Fin K → α) (σ : SimState n α) :
    SimState n α :=
  let h : Fin n → α := fun i => th (β * σ.x i)
  let g : Fin n → Fin n → α := fun i j => th (β * σ.S i j)
  let psi : Fin n → Fin n → α := fun i j => th (β * σ.P i j)
  { x := fun i => σ.x i + dt * (-σ.x i + ∑ j, σ.S i j * h j)
    S := fun i j => σ.S i j + dt * (-σ.S i j + h i * h j + psi i j)
    P := fun i j =>
      σ.P i j + dt * (-σ.P i j + (1 / (n : α) ^ 3) * contractNaive etas psi i j + g i j) }

/-- Variable store of the whole simulation cell: the initial-condition
objects `x0`, `S0`, `P0`, the loop variables `x`, `S`, `P` (initialized
by `x, S, P = x0.clone(), S0.clone(), P0.clone()`) and the loop-local
activation `h`, which is `none` before the first iteration (in the
source, the name `h` is only bound inside the loop body). -/
structure CellStore (n : ℕ) (α : Type) where
  x0 : Fin n → α
  S0 : Fin n → Fin n → α
  P0 : Fin n → Fin n → α
  x : Fin n → α
  S : Fin n → Fin n → α
  P : Fin n → Fin n → α
  h : Option (Fin n → α)

/-- One iteration of the Euler loop acting on the full cell store: only
the loop variables `x`, `S`, `P` and the loop-local `h` are written; the
initial-condition objects are never assigned inside the loop. -/
def loopStep {n K : ℕ} {α : Type} [LinearOrderedField α]
    (th : α → α) (β dt : α) (etas : Fin n → Fin K → α) (st : CellStore n α) :
    CellStore n α :=
  let σ := eulerStep th β dt etas ⟨st.x, st.S, st.P⟩
  { st with x := σ.x, S := σ.S, P := σ.P, h := some (fun i => th (β * st.x i)) }

/-- Embedding of the seed selection `mem = etas[:, memory_to_seed_from]`. -/
def cellMem {n K : ℕ} {α : Type} [LinearOrderedField α]
    (r : Fin n → Fin K → ℕ) (mi : Fin K) : Fin n → α :=
  fun i => generate_memory_bank (α := α) r i mi

/-- Embedding of the corrupted seed
`x0 = mem * generate_corruption_vector(N, corruption_level, device)`. -/
def cellX0 {n K : ℕ} {α : Type} [LinearOrderedField α]
    (corruption : α) (r : Fin n → Fin K → ℕ) (u : Fin n → α) (mi : Fin K) :
    Fin n → α :=
  fun i => cellMem r mi i * generate_corruption_vector corruption u i

/-- Embedding of the whole simulation cell: memory-bank generation,
seed selection, corruption, the initial-condition solver, the clone
`x, S, P = x0.clone(), S0.clone(), P0.clone()` into the loop variables,
and `steps` iterations of the Euler loop. -/
def runCell {n K : ℕ} {α : Type} [LinearOrderedField α]
    (ath th : α → α) (β dt corruption : α) (steps : ℕ)
    (r : Fin n → Fin K → ℕ) (u : Fin n → α) (mi : Fin K) : CellStore n α :=
  (loopStep th β dt (generate_memory_bank r))^[steps]
    ⟨cellX0 corruption r u mi,
     S0 ath th β (generate_memory_bank r) (cellX0 corruption r u mi),
     P0 ath th β (cellX0 corruption r u mi),
     cellX0 corruption r u mi,
     S0 ath th β (generate_memory_bank r) (cellX0 corruption r u mi),
     P0 ath th β (cellX0 corruption r u mi), none⟩

/-- Embedding of `torch.sign`. -/
def sgn {α : Type} [LinearOrderedField α] (a : α) : α :=
  if 0 < a then 1 else if a < 0 then -1 else 0

/-- Squared L2 distance; `torch.norm(v - w)` is the square root of this
quantity, so two vectors have equal `distSq` iff they have equal norm
of the difference. -/
def distSq {n : ℕ} {α : Type} [LinearOrderedField α] (a b : Fin n → α) : α :=
  ∑ i, (a i - b i) ^ 2

/-- Symmetry of an `n × n` matrix. -/
def MatSymm {n : ℕ} {α : Type} (A : Fin n → Fin n → α) : Prop :=
  ∀ i j, A i j = A j i

instance {n : ℕ} {α : Type} [DecidableEq α] (A : Fin n → Fin n → α) :
    Decidable (MatSymm A) := by
  unfold MatSymm; infer_instance

/-- C2: the naive 4-index contraction used by the code
(`einsum 'im,jm,km,lm,kl->ij'`) agrees, for every memory bank and every
matrix `psi`, with the factorized form described by the spec
(per-memory scalar `v_m = h_m^T psi h_m`, then
`Contract[i,j] = Σ_m etas[i,m]·etas[j,m]·v_m`). -/
theorem contract_factorization_equiv {n K : ℕ} {α : Type} [LinearOrderedField α]
    (etas : Fin n → Fin K → α) (psi : Fin n → Fin n → α) :
    contractNaive etas psi = contractFactored etas psi := by
  funext i j
  unfold contractNaive contractFactored
  calc
    ∑ k, ∑ l, psi k l * ∑ m, etas i m * etas j m * etas k m * etas l m
        = ∑ k, ∑ l, ∑ m, psi k l * (etas i m * etas j m * etas k m * etas l m) := by
          refine Finset.sum_congr rfl fun k _ => ?_
          refine Finset.sum_congr rfl fun l _ => ?_
          exact Finset.mul_sum _ _ _
    _ = ∑ k, ∑ m, ∑ l, psi k l * (etas i m * etas j m * etas k m * etas l m) := by
          exact Finset.sum_congr rfl fun k _ => Finset.sum_comm
    _ = ∑ m, ∑ k, ∑ l, psi k l * (etas i m * etas j m * etas k m * etas l m) :=
          Finset.sum_comm
    _ = ∑ m, etas i m * etas j m * (∑ k, ∑ l, etas k m * etas l m * psi k l) := by
          refine Finset.sum_congr rfl fun m _ => ?_
          rw [Finset.mul_sum]
          refine Finset.sum_congr rfl fun k _ => ?_
          rw [Finset.mul_sum]
          refine Finset.sum_congr rfl fun l _ => ?_
          ring

/-- Helper: the sequential loop body written out as explicit update
formulas over the pre-update state. -/
lemma eulerStep_apply {n K : ℕ} {α : Type} [LinearOrderedField α]
    (th : α → α) (β dt : α) (etas : Fin n → Fin K → α) (σ : SimState n α) :
    eulerStep th β dt etas σ =
      { x := fun i =>
          σ.x i + dt * (-σ.x i + ∑ j, σ.S i j * th (β * σ.x j))
        S := fun i j =>
          σ.S i j + dt * (-σ.S i j + th (β * σ.x i) * th (β * σ.x j) + th (β * σ.P i j))
        P := fun i j =>
          σ.P i j + dt * (-σ.P i j
            + (1 / (n : α) ^ 3) * contractNaive etas (fun a b => th (β * σ.P a b)) i j
            + th (β * σ.S i j)) } :=
  rfl

/-- C1: one iteration of the in-place Euler loop is exactly the
snapshot-semantics step: despite the sequential mutation order
(`x`, then `S`, then `P`), every right-hand side uses the same
pre-update snapshot of `(x, S, P, h, g, psi)` — the already-updated `x`
does not leak into the `S` or `P` update, and the already-updated `S`
does not leak into the `P` update. -/
theorem euler_step_uses_snapshot {n K : ℕ} {α : Type} [LinearOrderedField α]
    (th : α → α) (β dt : α) (etas : Fin n → Fin K → α) (σ : SimState n α) :
    eulerStep th β dt etas σ = snapshotStep th β dt etas σ :=
  rfl

/-- C6: with `NUM_STEPS = 0` the simulation cell performs no update and
the loop variables `(x, S, P)` still hold the initial-condition triple
`(x0, S0, P0)` exactly. -/
theorem zero_steps_returns_initial_triple {n K : ℕ} {α : Type} [LinearOrderedField α]
    (ath th : α → α) (β dt corruption : α)
    (r : Fin n → Fin K → ℕ) (u : Fin n → α) (mi : Fin K) :
    (runCell ath th β dt corruption 0 r u mi).x = cellX0 corruption r u mi
      ∧ (runCell ath th β dt corruption 0 r u mi).S
        = S0 ath th β (generate_memory_bank r) (cellX0 corruption r u mi)
      ∧ (runCell ath th β dt corruption 0 r u mi).P
        = P0 ath th β (cellX0 corruption r u mi) :=
  ⟨rfl, rfl, rfl⟩

/-- Helper: the contraction is symmetric in its two free indices for any
`psi`, because the factor `etas i m * etas j m` is symmetric. -/
lemma contractNaive_symm {n K : ℕ} {α : Type} [LinearOrderedField α]
    (etas : Fin n → Fin K → α) (psi : Fin n → Fin n → α) :
    MatSymm (contractNaive etas psi) := by
  intro i j
  unfold contractNaive
  refine Finset.sum_congr rfl fun k _ => ?_
  refine Finset.sum_congr rfl fun l _ => ?_
  congr 1
  exact Finset.sum_congr rfl fun m _ => by ring

/-- Helper: `psi_0` is symmetric. -/
lemma psi_0_symm {n : ℕ} {α : Type} [LinearOrderedField α]
    (th : α → α) (β : α) (x0 : Fin n → α) : MatSymm (psi_0 th β x0) := by
  intro i j
  unfold psi_0
  ring

/-- Helper: `P0` is symmetric. -/
lemma P0_symm {n : ℕ} {α : Type} [LinearOrderedField α]
    (ath th : α → α) (β : α) (x0 : Fin n → α) : MatSymm (P0 ath th β x0) := by
  intro i j
  unfold P0
  rw [psi_0_symm th β x0 i j]

/-- Helper: `S0` is symmetric. -/
lemma S0_symm {n K : ℕ} {α : Type} [LinearOrderedField α]
    (ath th : α → α) (β : α) (etas : Fin n → Fin K → α) (x0 : Fin n → α) :
    MatSymm (S0 ath th β etas x0) := by
  intro i j
  unfold S0
  rw [contractNaive_symm etas (psi_0 th β x0) i j]

/-- Helper: one Euler step preserves symmetry of `S` and `P`. -/
lemma eulerStep_preserves_symm {n K : ℕ} {α : Type} [LinearOrderedField α]
    (th : α → α) (β dt : α) (etas : Fin n → Fin K → α) (σ : SimState n α)
    (hS : MatSymm σ.S) (hP : MatSymm σ.P) :
    MatSymm (eulerStep th β dt etas σ).S ∧ MatSymm (eulerStep th β dt etas σ).P := by
  rw [eulerStep_apply]
  constructor
  · intro i j
    simp only
    rw [hS i j, hP i j, mul_comm (th (β * σ.x i)) (th (β * σ.x j))]
  · intro i j
    simp only
    rw [hP i j, hS i j,
      contractNaive_symm etas (fun a b => th (β * σ.P a b)) i j]

/-- C5: symmetry of `S` and `P` is an invariant of the dynamics — one
Euler step maps symmetric `(S, P)` to symmetric `(S', P')`, the solver
outputs `S0` and `P0` are symmetric, and hence the state after every
one of the `NUM_STEPS` updates has symmetric `S` and `P`. -/
theorem symmetry_invariant {n K : ℕ} {α : Type} [LinearOrderedField α]
    (ath th : α → α) (β dt : α) (etas : Fin n → Fin K → α) (x0 : Fin n → α) :
    (∀ σ : SimState n α, MatSymm σ.S → MatSymm σ.P →
        MatSymm (eulerStep th β dt etas σ).S ∧ MatSymm (eulerStep th β dt etas σ).P)
    ∧ MatSymm (S0 ath th β etas x0)
    ∧ MatSymm (P0 ath th β x0)
    ∧ ∀ k : ℕ,
        MatSymm ((eulerStep th β dt etas)^[k]
          ⟨x0, S0 ath th β etas x0, P0 ath th β x0⟩).S
        ∧ MatSymm ((eulerStep th β dt etas)^[k]
          ⟨x0, S0 ath th β etas x0, P0 ath th β x0⟩).P := by
  refine ⟨fun σ hS hP => eulerStep_preserves_symm th β dt etas σ hS hP,
    S0_symm ath th β etas x0, P0_symm ath th β x0, fun k => ?_⟩
  induction k with
  | zero => exact ⟨S0_symm ath th β etas x0, P0_symm ath th β x0⟩
  | succ k ih =>
      rw [Function.iterate_succ_apply']
      exact eulerStep_preserves_symm th β dt etas _ ih.1 ih.2

/-- Helper: the loop never writes the initial-condition fields of the
cell store, so any number of loop iterations leaves them unchanged. -/
lemma loopStep_iterate_fixes_ics {n K : ℕ} {α : Type} [LinearOrderedField α]
    (th : α → α) (β dt : α) (etas : Fin n → Fin K → α) :
    ∀ (k : ℕ) (st : CellStore n α),
      ((loopStep th β dt etas)^[k] st).x0 = st.x0
      ∧ ((loopStep th β dt etas)^[k] st).S0 = st.S0
      ∧ ((loopStep th β dt etas)^[k] st).P0 = st.P0 := by
  intro k
  induction k with
  | zero => exact fun st => ⟨rfl, rfl, rfl⟩
  | succ k ih =>
      intro st
      rw [Function.iterate_succ_apply']
      exact ih st

/-- C10: the integration loop never mutates the initial-condition
objects: after any number of steps, the `x0`, `S0`, `P0` slots of the
cell store still hold the values produced by the initial-condition
solver, and therefore the initial distance `‖sign(x0) − mem‖`, computed
only after the loop has run, equals the distance of the true initial
seed. -/
theorem loop_preserves_initial_objects {n K : ℕ} {α : Type} [LinearOrderedField α]
    (ath th : α → α) (β dt corruption : α) (steps : ℕ)
    (r : Fin n → Fin K → ℕ) (u : Fin n → α) (mi : Fin K) :
    (runCell ath th β dt corruption steps r u mi).x0 = cellX0 corruption r u mi
    ∧ (runCell ath th β dt corruption steps r u mi).S0
        = S0 ath th β (generate_memory_bank r) (cellX0 corruption r u mi)
    ∧ (runCell ath th β dt corruption steps r u mi).P0
        = P0 ath th β (cellX0 corruption r u mi)
    ∧ distSq (fun i => sgn ((runCell ath th β dt corruption steps r u mi).x0 i))
          (cellMem r mi)
        = distSq (fun i => sgn (cellX0 corruption r u mi i)) (cellMem r mi) := by
  obtain ⟨h1, h2, h3⟩ :=
    loopStep_iterate_fixes_ics th β dt (generate_memory_bank r) steps
      ⟨cellX0 corruption r u mi,
       S0 ath th β (generate_memory_bank r) (cellX0 corruption r u mi),
       P0 ath th β (cellX0 corruption r u mi),
       cellX0 corruption r u mi,
       S0 ath th β (generate_memory_bank r) (cellX0 corruption r u mi),
       P0 ath th β (cellX0 corruption r u mi), none⟩
  refine ⟨h1, h2, h3, ?_⟩
  have h1' : (runCell ath th β dt corruption steps r u mi).x0
      = cellX0 corruption r u mi := h1
  rw [h1']

/-- C8: the simulation is deterministic in its random inputs — with the
memory-bank draws `r` and the corruption draws `u` fixed, two runs with
identical configuration produce identical trajectories (the cell store
after every step count `t`, hence in particular identical final
`(x, S, P, h)`). -/
theorem run_deterministic {n K : ℕ} {α : Type} [LinearOrderedField α]
    (ath₁ th₁ : α → α) (β₁ dt₁ c₁ : α)
    (r₁ : Fin n → Fin K → ℕ) (u₁ : Fin n → α) (m₁ : Fin K)
    (ath₂ th₂ : α → α) (β₂ dt₂ c₂ : α)
    (r₂ : Fin n → Fin K → ℕ) (u₂ : Fin n → α) (m₂ : Fin K)
    (hath : ath₁ = ath₂) (hth : th₁ = th₂) (hβ : β₁ = β₂) (hdt : dt₁ = dt₂)
    (hc : c₁ = c₂) (hr : r₁ = r₂) (hu : u₁ = u₂) (hm : m₁ = m₂) :
    ∀ t : ℕ, runCell ath₁ th₁ β₁ dt₁ c₁ t r₁ u₁ m₁
      = runCell ath₂ th₂ β₂ dt₂ c₂ t r₂ u₂ m₂ := by
  subst hath hth hβ hdt hc hr hu hm
  intro t
  rfl

/-- Witness for C8 at a concrete configuration and step count. -/
theorem run_deterministic_witness :
    runCell (α := ℚ) id id 1 1 0 2
        (fun _ : Fin 1 => fun _ : Fin 1 => 1) (fun _ : Fin 1 => 0) 0
      = runCell (α := ℚ) id id 1 1 0 2
        (fun _ : Fin 1 => fun _ : Fin 1 => 1) (fun _ : Fin 1 => 0) 0 :=
  run_deterministic id id 1 1 0 (fun _ => fun _ => 1) (fun _ => 0) 0
    id id 1 1 0 (fun _ => fun _ => 1) (fun _ => 0) 0
    rfl rfl rfl rfl rfl rfl rfl rfl 2

/-- C9: every entry of the generated memory bank
`etas = 2 * torch.randint(2, (N, K)).float() - 1` is exactly `-1` or
exactly `+1` (the draws of `torch.randint(2, ...)` are `0` or `1`);
the `N × K` shape is carried by the type. -/
theorem memory_bank_entries_pm_one {n K : ℕ} {α : Type} [LinearOrderedField α]
    (r : Fin n → Fin K → ℕ) (hr : ∀ i j, r i j < 2) :
    ∀ i j, generate_memory_bank (α := α) r i j = -1
      ∨ generate_memory_bank (α := α) r i j = 1 := by
  intro i j
  unfold generate_memory_bank
  have hlt := hr i j
  have h2 : r i j = 0 ∨ r i j = 1 := by omega
  rcases h2 with h | h
  · left
    rw [h]
    norm_num
  · right
    rw [h]
    norm_num

/-- Witness for C9 at a concrete draw. -/
theorem memory_bank_entries_pm_one_witness :
    generate_memory_bank (α := ℚ) (fun _ : Fin 1 => fun _ : Fin 1 => 1) 0 0 = -1
    ∨ generate_memory_bank (α := ℚ) (fun _ : Fin 1 => fun _ : Fin 1 => 1) 0 0 = 1 :=
  memory_bank_entries_pm_one (fun _ => fun _ => 1) (fun _ _ => Nat.one_lt_two) 0 0

/-- C4 counterexample: with `corruption = 1` the draw `u = 0`, which is
a legal value of `torch.rand` (uniform on `[0,1)`), satisfies the
threshold `u ≤ 1 - corruption = 0`, so the produced entry is `+1`, not
`-1`: `corruption = 1` does not yield the all-`(-1)` vector on every
draw vector. -/
theorem corruption_one_zero_draw_counterexample :
    (0 : ℚ) ≤ 0 ∧ (0 : ℚ) < 1
    ∧ generate_corruption_vector (1 : ℚ) (fun _ : Fin 1 => 0) 0 = 1
    ∧ generate_corruption_vector (1 : ℚ) (fun _ : Fin 1 => 0) 0 ≠ -1 := by
  refine ⟨le_refl 0, zero_lt_one, ?_, ?_⟩ <;>
    norm_num [generate_corruption_vector]

/-- C4 (amended): `generate_corruption_vector` sets each entry to `+1`
when its draw satisfies `u ≤ 1 - corruption` and to `-1` otherwise;
`corruption = 0` always yields the all-`+1` vector, hence
`x0 = mem * corruption_vector = mem` exactly; and `corruption = 1`
yields `-1` at every entry whose draw is strictly positive (a draw of
exactly `0` yields `+1`). -/
theorem generate_corruption_vector_threshold_spec {n : ℕ} {α : Type}
    [LinearOrderedField α] (corruption : α) (u : Fin n → α)
    (hu : ∀ i, 0 ≤ u i ∧ u i < 1) :
    (∀ i, generate_corruption_vector corruption u i
        = if u i ≤ 1 - corruption then 1 else -1)
    ∧ (corruption = 0 → ∀ i, generate_corruption_vector corruption u i = 1)
    ∧ (corruption = 0 → ∀ mem : Fin n → α,
        (fun i => mem i * generate_corruption_vector corruption u i) = mem)
    ∧ (corruption = 1 → ∀ i, 0 < u i →
        generate_corruption_vector corruption u i = -1) := by
  have hone : corruption = 0 → ∀ i, generate_corruption_vector corruption u i = 1 := by
    intro hc i
    subst hc
    unfold generate_corruption_vector
    rw [if_pos]
    have := (hu i).2
    linarith
  refine ⟨fun i => rfl, hone, ?_, ?_⟩
  · intro hc mem
    funext i
    rw [hone hc i, mul_one]
  · intro hc i hi
    subst hc
    unfold generate_corruption_vector
    rw [if_neg]
    rw [not_le]
    linarith

/-- Witness for C4 (amended) at concrete draws. -/
theorem generate_corruption_vector_threshold_spec_witness :
    generate_corruption_vector (0 : ℚ) (fun _ : Fin 1 => 0) 0 = 1 :=
  (generate_corruption_vector_threshold_spec 0 (fun _ : Fin 1 => 0)
    (fun _ => ⟨le_refl 0, zero_lt_one⟩)).2.1 rfl 0

/-- Witness for C5 at a concrete symmetric state. -/
theorem symmetry_invariant_witness :
    MatSymm (eulerStep (id : ℚ → ℚ) 1 1 (fun _ : Fin 1 => fun _ : Fin 1 => 1)
        ⟨fun _ => 0, fun _ _ => 0, fun _ _ => 0⟩).S
    ∧ MatSymm (eulerStep (id : ℚ → ℚ) 1 1 (fun _ : Fin 1 => fun _ : Fin 1 => 1)
        ⟨fun _ => 0, fun _ _ => 0, fun _ _ => 0⟩).P :=
  (symmetry_invariant id id 1 1 (fun _ => fun _ => 1) (fun _ => 0)).1
    ⟨fun _ => 0, fun _ _ => 0, fun _ _ => 0⟩ (fun _ _ => rfl) (fun _ _ => rfl)

/-- Helper: the real hyperbolic tangent is strictly below `1`. -/
lemma tanh_lt_one_real (x : ℝ) : Real.tanh x < 1 := by
  rw [Real.tanh_eq_sinh_div_cosh]
  exact (div_lt_one (Real.cosh_pos x)).mpr (Real.sinh_lt_cosh x)

/-- Helper: the real hyperbolic tangent is strictly above `-1`. -/
lemma neg_one_lt_tanh_real (x : ℝ) : -1 < Real.tanh x := by
  have h := tanh_lt_one_real (-x)
  rw [Real.tanh_neg] at h
  linarith

/-- Helper: the real hyperbolic tangent has absolute value below `1`. -/
lemma abs_tanh_lt_one (x : ℝ) : |Real.tanh x| < 1 :=
  abs_lt.mpr ⟨neg_one_lt_tanh_real x, tanh_lt_one_real x⟩

/-- C3 counterexample: at the concrete valid input `β = 1 > 0`,
`x0 = (1)` (a vector with entries in `{-1, +1}`), the diagonal entry
`psi_0[0,0] = -tanh(1)²` is NOT exactly `-1`: in exact arithmetic
`tanh` never attains magnitude `1`, so the claimed exact singularity of
the `P0` diagonal does not occur. -/
theorem psi0_diagonal_not_neg_one_counterexample :
    (0 : ℝ) < 1
    ∧ ((fun _ : Fin 1 => (1 : ℝ)) 0 = 1 ∨ (fun _ : Fin 1 => (1 : ℝ)) 0 = -1)
    ∧ psi_0 Real.tanh 1 (fun _ : Fin 1 => (1 : ℝ)) 0 0 ≠ -1 := by
  refine ⟨zero_lt_one, Or.inl rfl, ?_⟩
  unfold psi_0
  intro hc
  have h1 : Real.tanh (1 * (1 : ℝ)) * Real.tanh (1 * (1 : ℝ)) = 1 := by linarith
  have h2 := abs_tanh_lt_one (1 * (1 : ℝ))
  rcases abs_lt.mp h2 with ⟨hlo, hhi⟩
  nlinarith

/-- C3 (amended): for every `x0` with entries in `{-1, +1}` and every
`β > 0`, every entry of `psi_0` — the diagonal included — has absolute
value strictly below `1` (so every entry of `P0 = (1/β)·atanh(psi_0)`
is finite: the elementwise `atanh` is applied strictly inside its
domain); the diagonal equals `-tanh(β)²`, which is close to `-1` for
large `β` but never exactly `-1`. -/
theorem psi0_entries_strictly_inside_unit_interval {n : ℕ} (β : ℝ) (_hβ : 0 < β)
    (x0 : Fin n → ℝ) (hx : ∀ i, x0 i = 1 ∨ x0 i = -1) :
    (∀ i j, |psi_0 Real.tanh β x0 i j| < 1)
    ∧ (∀ i, psi_0 Real.tanh β x0 i i = -Real.tanh β ^ 2)
    ∧ (∀ i, psi_0 Real.tanh β x0 i i ≠ -1) := by
  have habs : ∀ i j, |psi_0 Real.tanh β x0 i j| < 1 := by
    intro i j
    unfold psi_0
    have hi := abs_tanh_lt_one (β * x0 i)
    have hj := abs_tanh_lt_one (β * x0 j)
    have hi0 := abs_nonneg (Real.tanh (β * x0 i))
    have hj0 := abs_nonneg (Real.tanh (β * x0 j))
    rw [abs_neg, abs_mul]
    nlinarith
  have hdiag : ∀ i, psi_0 Real.tanh β x0 i i = -Real.tanh β ^ 2 := by
    intro i
    unfold psi_0
    rcases hx i with h | h
    · rw [h, mul_one]
      ring
    · rw [h, mul_neg_one, Real.tanh_neg]
      ring
  refine ⟨habs, hdiag, fun i => ?_⟩
  intro hc
  have h1 := habs i i
  rw [hc] at h1
  norm_num at h1

/-- Witness for C3 (amended) at a concrete input. -/
theorem psi0_entries_strictly_inside_unit_interval_witness :
    |psi_0 Real.tanh 1 (fun _ : Fin 1 => (1 : ℝ)) 0 0| < 1
    ∧ psi_0 Real.tanh 1 (fun _ : Fin 1 => (1 : ℝ)) 0 0 ≠ -1 :=
  ⟨(psi0_entries_strictly_inside_unit_interval 1 zero_lt_one (fun _ => 1)
      (fun _ => Or.inl rfl)).1 0 0,
   (psi0_entries_strictly_inside_unit_interval 1 zero_lt_one (fun _ => 1)
      (fun _ => Or.inl rfl)).2.2 0⟩

/-- C7: the simulation cell performs no configuration validation: at
the invalid configuration `dt = -1 ≤ 0` (with `N = K = 1`,
`NUM_STEPS = 1`, `β = 1`, `corruption = 0`, seeding from memory `0`)
the whole pipeline — memory generation, initial-condition solving and
integration — runs to completion and produces definite values, instead
of failing fast with a validation error before any computation. -/
theorem no_validation_runs_with_invalid_config :
    ((-1 : ℚ) ≤ 0)
    ∧ (runCell (α := ℚ) id id 1 (-1) 0 1
        (fun _ : Fin 1 => fun _ : Fin 1 => 1) (fun _ : Fin 1 => 0) 0).x 0 = 1
    ∧ (runCell (α := ℚ) id id 1 (-1) 0 1
        (fun _ : Fin 1 => fun _ : Fin 1 => 1) (fun _ : Fin 1 => 0) 0).S 0 0 = 2
    ∧ (runCell (α := ℚ) id id 1 (-1) 0 1
        (fun _ : Fin 1 => fun _ : Fin 1 => 1) (fun _ : Fin 1 => 0) 0).P 0 0 = -2 := by
  refine ⟨by norm_num, ?_, ?_, ?_⟩ <;>
    norm_num [runCell, loopStep, eulerStep, S0, P0, psi_0, contractNaive,
      generate_memory_bank, generate_corruption_vector, cellX0, cellMem,
      Fin.sum_univ_one, Function.iterate_one]

end Naam
